import Mathlib

/-!
Shallow embedding of `calc4.py` (interactive polymer flooding economic
calculator).  Python floats are modelled as exact rationals `ℚ`; fallible
operations (dict lookup, list indexing, division by zero) return
`Except CalcError`.  Interactive I/O and plotting are out of scope; only the
computational core (lines 16-128 and the comparison loop of `main`,
lines 217-233) is embedded.
-/

namespace Calc4

/-- Runtime errors the embedded core can surface, mirroring the Python
exceptions that the corresponding operations raise: `KeyError` from dict
access, `IndexError` from list indexing, `ZeroDivisionError` from division
by zero. -/
inductive CalcError where
  | keyError
  | indexError
  | zeroDivisionError
deriving DecidableEq

deriving instance DecidableEq for Except

/- ============== DEFAULT SETTINGS (calc4.py lines 17-23) ============== -/

def DISCOUNT_RATE_DEFAULT : ℚ := 8 / 100

def TAX_RATE_DEFAULT : ℚ := 8 / 100

def BASE_REVENUE_DEFAULT : ℚ := 5500000

def REVENUE_GROWTH_DEFAULT : ℚ := 6 / 100

def OPEX_YEAR1_DEFAULT : ℚ := 910000

def OPEX_GROWTH_LONG_DEFAULT : ℚ := 2 / 100

def EQUIPMENT_REPLACEMENT_COST : ℚ := 30000

/-- One entry of the `POLYMERS` dict (calc4.py lines 26-45). -/
structure PolymerData where
  name : String
  price_per_kg : ℚ
  conc_kg_per_m3 : ℚ
  inj_volume_m3 : ℚ
deriving DecidableEq

/-- The `POLYMERS` dict, as an association list in the dict's insertion
order (calc4.py lines 26-45). -/
def POLYMERS : List (String × PolymerData) :=
  [("hpam", ⟨"Partially hydrolyzed polyacrylamide (HPAM)", 13 / 10, 8 / 10, 100000⟩),
   ("xanthan", ⟨"Xanthan gum (oilfield grade)", 24 / 10, 6 / 10, 100000⟩),
   ("atbs", ⟨"ATBS-modified polyacrylamide", 19 / 10, 7 / 10, 100000⟩)]

/- ============== MATH UTILS (calc4.py lines 50-79) ============== -/

/-- Loop body of `npv` (calc4.py lines 51-54): `t` is the 1-based position,
`total` the running sum.  A zero denominator `(1+rate)^t` is Python's
`ZeroDivisionError`. -/
def npvLoop (rate : ℚ) : List ℚ → ℕ → ℚ → Except CalcError ℚ
  | [], _, total => .ok total
  | cf :: rest, t, total =>
    if (1 + rate) ^ t = 0 then .error .zeroDivisionError
    else npvLoop rate rest (t + 1) (total + cf / (1 + rate) ^ t)

/-- `npv(cashflows, rate)` (calc4.py lines 50-54). -/
def npv (cashflows : List ℚ) (rate : ℚ) : Except CalcError ℚ :=
  npvLoop rate cashflows 1 0

/-- `polymer_cost(poly_key)` (calc4.py lines 57-60): dict access raises
`KeyError` when the key is absent; otherwise
`mass = conc * volume; return mass * price`. -/
def polymer_cost (poly_key : String) : Except CalcError ℚ :=
  match POLYMERS.lookup poly_key with
  | none => .error .keyError
  | some data => .ok (data.conc_kg_per_m3 * data.inj_volume_m3 * data.price_per_kg)

/-- Python's `round` to integer: round half to even (banker's rounding),
on exact rationals. -/
def pyRoundInt (x : ℚ) : ℤ :=
  let f := ⌊x⌋
  if x - f < 1 / 2 then f
  else if 1 / 2 < x - f then f + 1
  else if f % 2 = 0 then f else f + 1

/-- Python's `round(x, 2)` on exact rationals. -/
def round2 (x : ℚ) : ℚ := pyRoundInt (x * 100) / 100

/-- Loop of `generate_revenues` (calc4.py lines 64-69): append
`round(cur, 2)`, then `cur *= (1 + growth)`, for `years` iterations. -/
def genRevenuesLoop (growth : ℚ) : ℕ → ℚ → List ℚ
  | 0, _ => []
  | n + 1, cur => round2 cur :: genRevenuesLoop growth n (cur * (1 + growth))

/-- `generate_revenues(years, start, growth)` (calc4.py lines 63-69). -/
def generate_revenues (years : ℕ) (start growth : ℚ) : List ℚ :=
  genRevenuesLoop growth years start

/-- Loop of `generate_opex` (calc4.py lines 74-78): `year` runs 1-based;
`prev` is `opex[-1]`, the last value appended (initially unused since
year 1 takes the `start` branch). -/
def genOpexLoop (start long_growth : ℚ) : ℕ → ℕ → ℚ → List ℚ
  | 0, _, _ => []
  | n + 1, year, prev =>
    let v := if year ≤ 10 then start else prev * (1 + long_growth)
    v :: genOpexLoop start long_growth n (year + 1) v

/-- `generate_opex(years, start, long_growth)` (calc4.py lines 72-79). -/
def generate_opex (years : ℕ) (start long_growth : ℚ) : List ℚ :=
  genOpexLoop start long_growth years 1 start

/-- Value of the OPEX series at a 1-based `year` (helper for the loop
invariant of `genOpexLoop`): flat `start` through year 10, then compounded
off the year-10 value. -/
def opexVal (start long_growth : ℚ) (year : ℕ) : ℚ :=
  if year ≤ 10 then start else start * (1 + long_growth) ^ (year - 10)

/- ============== CASHFLOW BUILDER (calc4.py lines 82-128) ============== -/

/-- One row of the per-year ledger (calc4.py lines 106-116). -/
structure YearRecord where
  year : ℕ
  revenue : ℚ
  opex : ℚ
  polymer_exp : ℚ
  equipment : ℚ
  taxable_income : ℚ
  tax : ℚ
  net_profit : ℚ
  cash_flow : ℚ
deriving DecidableEq

/-- The dict returned by `build_cashflow_for_polymer`
(calc4.py lines 123-128). -/
structure PolymerResult where
  rows : List YearRecord
  npv : ℚ
  sum_cf : ℚ
  cashflows : List ℚ
deriving DecidableEq

/-- Loop body of `build_cashflow_for_polymer` (calc4.py lines 95-119):
`n` is the number of remaining iterations, `year` the 1-based year of the
next iteration; `rows`, `cashflows`, `sum_cf` are the accumulators.
`revenues[year - 1]` / `opex_list[year - 1]` out of range is Python's
`IndexError`. -/
def buildLoop (poly_cost_val tax_rate : ℚ) (revenues opex_list : List ℚ) :
    ℕ → ℕ → List YearRecord → List ℚ → ℚ →
    Except CalcError (List YearRecord × List ℚ × ℚ)
  | 0, _, rows, cashflows, sum_cf => .ok (rows, cashflows, sum_cf)
  | n + 1, year, rows, cashflows, sum_cf =>
    match revenues.get? (year - 1), opex_list.get? (year - 1) with
    | some revenue, some opex =>
      let poly_exp := if year = 1 then poly_cost_val else 0
      let equipment := if year % 10 = 0 ∧ 1 < year then EQUIPMENT_REPLACEMENT_COST else 0
      let taxable_income := revenue - opex - poly_exp - equipment
      let tax := max taxable_income 0 * tax_rate
      let net_profit := taxable_income - tax
      let cash_flow := net_profit
      buildLoop poly_cost_val tax_rate revenues opex_list n (year + 1)
        (rows ++ [⟨year, revenue, opex, poly_exp, equipment,
                   taxable_income, tax, net_profit, cash_flow⟩])
        (cashflows ++ [cash_flow]) (sum_cf + cash_flow)
    | _, _ => .error .indexError

/-- `build_cashflow_for_polymer(poly_key, years, revenues, opex_list,
tax_rate, discount_rate)` (calc4.py lines 82-128); an exception raised by
`polymer_cost`, the loop, or `npv` propagates to the caller. -/
def build_cashflow_for_polymer (poly_key : String) (years : ℕ)
    (revenues opex_list : List ℚ) (tax_rate discount_rate : ℚ) :
    Except CalcError PolymerResult :=
  match polymer_cost poly_key with
  | .error e => .error e
  | .ok poly_cost_val =>
    match buildLoop poly_cost_val tax_rate revenues opex_list years 1 [] [] 0 with
    | .error e => .error e
    | .ok acc =>
      match npv acc.2.1 discount_rate with
      | .error e => .error e
      | .ok project_npv => .ok ⟨acc.1, project_npv, acc.2.2, acc.2.1⟩

/- ============== COMPARISON (calc4.py lines 217-233) ============== -/

/-- The best-tracking update of `main`'s loop (calc4.py lines 231-233):
`if res["npv"] > best_npv: best_npv = res["npv"]; best_poly = key`, where
the initial `best_npv = float("-inf")` / `best_poly = None` state is
modelled by `none` (any finite NPV is strictly greater than −inf, so the
update always fires on a `none` state). -/
def selStep (acc : Option String × Option ℚ) (kv : String × ℚ) :
    Option String × Option ℚ :=
  let better : Bool :=
    match acc.2 with
    | none => true
    | some b => decide (b < kv.2)
  if better then (some kv.1, some kv.2) else acc

/-- The comparison loop of `main` (calc4.py lines 217-233): iterate over the
catalog in insertion order, build each polymer's result, record the pair
`(key, npv)`, and track the running best with `selStep`.  Returns the
recorded pairs in iteration order together with the final
`(best_poly, best_npv)`. -/
def compareLoop (years : ℕ) (revenues opex_list : List ℚ)
    (tax_rate discount_rate : ℚ) :
    List (String × PolymerData) → Option String → Option ℚ →
    Except CalcError (List (String × ℚ) × Option String × Option ℚ)
  | [], best_poly, best_npv => .ok ([], best_poly, best_npv)
  | kv :: rest, best_poly, best_npv =>
    match build_cashflow_for_polymer kv.1 years revenues opex_list tax_rate discount_rate with
    | .error e => .error e
    | .ok res =>
      match compareLoop years revenues opex_list tax_rate discount_rate rest
          (selStep (best_poly, best_npv) (kv.1, res.npv)).1
          (selStep (best_poly, best_npv) (kv.1, res.npv)).2 with
      | .error e => .error e
      | .ok next => .ok ((kv.1, res.npv) :: next.1, next.2)

/-- Step 4 of `main` (calc4.py lines 217-233), run over the whole catalog. -/
def compare_polymers (years : ℕ) (revenues opex_list : List ℚ)
    (tax_rate discount_rate : ℚ) :
    Except CalcError (List (String × ℚ) × Option String × Option ℚ) :=
  compareLoop years revenues opex_list tax_rate discount_rate POLYMERS none none

/-- Per-row ledger facts established by the builder loop: the expense
schedule (polymer cost only in year 1, equipment only in years that are
multiples of 10 and greater than 1) and the derived ledger equations. -/
def rowInvariant (c tax_rate : ℚ) (r : YearRecord) : Prop :=
  r.polymer_exp = (if r.year = 1 then c else 0) ∧
  r.equipment = (if r.year % 10 = 0 ∧ 1 < r.year then EQUIPMENT_REPLACEMENT_COST else 0) ∧
  r.taxable_income = r.revenue - r.opex - r.polymer_exp - r.equipment ∧
  r.tax = max r.taxable_income 0 * tax_rate ∧
  r.net_profit = r.taxable_income - r.tax ∧
  r.cash_flow = r.net_profit

/- ============== NPV LEMMAS ============== -/

/-- Closed form of the `npv` loop when the discount base `1 + rate` is
nonzero: the loop never raises and returns the running total plus the
discounted tail. -/
lemma npvLoop_ok (rate : ℚ) (h : 1 + rate ≠ 0) :
    ∀ (cfs : List ℚ) (t : ℕ) (total : ℚ),
      npvLoop rate cfs t total =
        Except.ok (total + ∑ i ∈ Finset.range cfs.length,
          cfs.getD i 0 / (1 + rate) ^ (t + i)) := by
  intro cfs
  induction cfs with
  | nil => intro t total; simp [npvLoop]
  | cons cf rest ih =>
    intro t total
    have hp : (1 + rate) ^ t ≠ 0 := pow_ne_zero t h
    rw [npvLoop, if_neg hp, ih (t + 1) (total + cf / (1 + rate) ^ t)]
    congr 1
    rw [List.length_cons, Finset.sum_range_succ']
    simp only [List.getD_cons_succ, List.getD_cons_zero, Nat.add_zero]
    rw [Finset.sum_congr rfl (fun i _ => by rw [show t + 1 + i = t + (i + 1) by omega])]
    ring

/-- Summing the positional `getD` values over the index range gives the
list sum. -/
lemma sum_getD_eq_sum :
    ∀ l : List ℚ, (∑ i ∈ Finset.range l.length, l.getD i 0) = l.sum := by
  intro l
  induction l with
  | nil => simp
  | cons c rest ih =>
    rw [List.length_cons, Finset.sum_range_succ']
    simp only [List.getD_cons_succ, List.getD_cons_zero, List.sum_cons]
    rw [ih]
    ring

/-- Membership of a positional `getD` value when the index is in range. -/
lemma getD_mem_of_lt : ∀ (l : List ℚ) (i : ℕ), i < l.length → l.getD i 0 ∈ l := by
  intro l
  induction l with
  | nil => simp
  | cons a t ih =>
    intro i hi
    cases i with
    | zero => simp
    | succ j =>
      rw [List.getD_cons_succ]
      exact List.mem_cons_of_mem _ (ih j (by simpa using hi))

/-- C2: for every cash-flow sequence and every rate greater than −1,
`npv` succeeds and equals the sum over t = 1..N of `cashflows[t-1] / (1+rate)^t`
(first cash flow discounted one full period); and at rate 0 it equals the
arithmetic sum of the cash flows. -/
theorem npv_closed_form :
    ∀ (cashflows : List ℚ) (rate : ℚ), -1 < rate →
      npv cashflows rate =
        Except.ok (∑ i ∈ Finset.range cashflows.length,
          cashflows.getD i 0 / (1 + rate) ^ (i + 1)) ∧
      npv cashflows 0 = Except.ok cashflows.sum := by
  intro cfs rate hr
  have h : (1 : ℚ) + rate ≠ 0 := by intro hc; nlinarith
  constructor
  · rw [npv, npvLoop_ok rate h cfs 1 0]
    congr 1
    rw [zero_add]
    exact Finset.sum_congr rfl fun i _ => by rw [Nat.add_comm 1 i]
  · rw [npv, npvLoop_ok 0 (by norm_num) cfs 1 0]
    congr 1
    rw [zero_add, ← sum_getD_eq_sum cfs]
    exact Finset.sum_congr rfl fun i _ => by norm_num

/-- Witness for `npv_closed_form` at cashflows `[2, 4]` and rate 1:
2/2 + 4/4 = 2, and the undiscounted sum is 6. -/
theorem npv_closed_form_witness :
    npv [2, 4] 1 = Except.ok 2 ∧ npv [2, 4] 0 = Except.ok 6 := by
  have h := npv_closed_form [2, 4] 1 (by norm_num)
  refine ⟨?_, ?_⟩
  · rw [h.1]; norm_num [Finset.sum_range_succ]
  · rw [h.2]; norm_num

/-- C10: `npv` on the empty cash-flow sequence returns exactly 0, for every
rate (the loop body never runs). -/
theorem npv_nil :
    ∀ rate : ℚ, npv [] rate = Except.ok 0 := by
  intro rate
  rfl

/-- C6 counterexample: the rate −2 is ≤ −1, yet `npv [1] (-2)` does not
fail — it returns `ok (-1)` (the denominators `(-1)^t` are nonzero), so the
claim that every rate ≤ −1 fails is false on the code. -/
theorem npv_negative_rate_succeeds :
    (-2 : ℚ) ≤ -1 ∧ npv [1] (-2) = Except.ok (-1) := by
  constructor
  · norm_num
  · norm_num [npv, npvLoop]

/-- C6 (amended): `npv` fails — with Python's `ZeroDivisionError`, the only
error it can raise; no `InvalidDiscountRate` error exists — exactly when the
rate equals −1 and the cash-flow sequence is non-empty; for every other
rate, including rates strictly below −1, it succeeds. -/
theorem npv_error_iff :
    ∀ (cashflows : List ℚ) (rate : ℚ),
      (npv cashflows rate = Except.error CalcError.zeroDivisionError ↔
        rate = -1 ∧ cashflows ≠ []) ∧
      ((rate ≠ -1 ∨ cashflows = []) → ∀ e, npv cashflows rate ≠ Except.error e) := by
  intro cfs rate
  by_cases hr : rate = -1
  · subst hr
    cases cfs with
    | nil =>
      constructor
      · constructor
        · intro h; exact absurd h (by decide)
        · intro h; exact absurd rfl h.2
      · intro _ e h
        exact Except.noConfusion h
    | cons c rest =>
      have hz : npv (c :: rest) (-1) = Except.error CalcError.zeroDivisionError := by
        rw [npv, npvLoop, if_pos (by norm_num)]
      constructor
      · constructor
        · intro _; exact ⟨rfl, by simp⟩
        · intro _; exact hz
      · intro h
        rcases h with h | h
        · exact absurd rfl h
        · exact absurd h (by simp)
  · have h1 : (1 : ℚ) + rate ≠ 0 := by
      intro hc; exact hr (by linarith)
    have hok := npvLoop_ok rate h1 cfs 1 0
    constructor
    · rw [npv, hok]
      constructor
      · intro h; exact absurd h (by simp)
      · intro h; exact absurd h.1 hr
    · intro _ e
      rw [npv, hok]
      simp

/-- Witness for `npv_error_iff`: at rate −2 (≠ −1) the function raises no
error, and at rate −1 with a non-empty list it raises `ZeroDivisionError`. -/
theorem npv_error_iff_witness :
    npv [1] (-2) ≠ Except.error CalcError.zeroDivisionError ∧
    npv [1] (-1) = Except.error CalcError.zeroDivisionError :=
  ⟨(npv_error_iff [1] (-2)).2 (Or.inl (by norm_num)) CalcError.zeroDivisionError,
   (npv_error_iff [1] (-1)).1.mpr ⟨rfl, by simp⟩⟩

/-- C9: for non-empty all-positive cash flows and rates −1 < r1 < r2, the
NPV at r1 strictly exceeds the NPV at r2: `npv` is strictly decreasing in
the rate. -/
theorem npv_strict_antitone :
    ∀ (cashflows : List ℚ) (r1 r2 v1 v2 : ℚ),
      cashflows ≠ [] → (∀ c ∈ cashflows, 0 < c) → -1 < r1 → r1 < r2 →
      npv cashflows r1 = Except.ok v1 → npv cashflows r2 = Except.ok v2 →
      v2 < v1 := by
  intro cfs r1 r2 v1 v2 hne hpos h1 h12 e1 e2
  have h2 : (-1 : ℚ) < r2 := lt_trans h1 h12
  have k1 := (npv_closed_form cfs r1 h1).1
  have k2 := (npv_closed_form cfs r2 h2).1
  rw [e1] at k1
  rw [e2] at k2
  have hv1 : v1 = ∑ i ∈ Finset.range cfs.length, cfs.getD i 0 / (1 + r1) ^ (i + 1) :=
    Except.ok.inj k1
  have hv2 : v2 = ∑ i ∈ Finset.range cfs.length, cfs.getD i 0 / (1 + r2) ^ (i + 1) :=
    Except.ok.inj k2
  rw [hv1, hv2]
  have hlen : 0 < cfs.length := List.length_pos.mpr hne
  refine Finset.sum_lt_sum_of_nonempty ⟨0, Finset.mem_range.mpr hlen⟩ ?_
  intro i hi
  have hmem : cfs.getD i 0 ∈ cfs := getD_mem_of_lt cfs i (Finset.mem_range.mp hi)
  have hc : 0 < cfs.getD i 0 := hpos _ hmem
  have ha : (0 : ℚ) < 1 + r1 := by linarith
  have hpow : (1 + r1) ^ (i + 1) < (1 + r2) ^ (i + 1) :=
    pow_lt_pow_left₀ (by linarith) (le_of_lt ha) (Nat.succ_ne_zero i)
  exact div_lt_div_of_pos_left hc (pow_pos ha (i + 1)) hpow

/-- Witness for `npv_strict_antitone`: cash flow `[1]`, rates 0 < 1, with
NPVs 1 and 1/2. -/
theorem npv_strict_antitone_witness :
    npv [1] 0 = Except.ok 1 ∧ npv [1] 1 = Except.ok (1 / 2) ∧ (1 : ℚ) / 2 < 1 :=
  ⟨by norm_num [npv, npvLoop], by norm_num [npv, npvLoop],
   npv_strict_antitone [1] 0 1 1 (1 / 2) (by simp) (by simp) (by norm_num)
     (by norm_num) (by norm_num [npv, npvLoop]) (by norm_num [npv, npvLoop])⟩

/- ============== REVENUE SERIES (C4) ============== -/

/-- Length of the revenue loop output. -/
lemma genRevenuesLoop_length (growth : ℚ) :
    ∀ (n : ℕ) (cur : ℚ), (genRevenuesLoop growth n cur).length = n := by
  intro n
  induction n with
  | zero => intro cur; rfl
  | succ m ih => intro cur; simp [genRevenuesLoop, ih]

/-- Element `i` of the revenue loop output compounds the unrounded running
value and rounds only the stored output. -/
lemma genRevenuesLoop_getD (growth : ℚ) :
    ∀ (n : ℕ) (cur : ℚ) (i : ℕ), i < n →
      (genRevenuesLoop growth n cur).getD i 0 = round2 (cur * (1 + growth) ^ i) := by
  intro n
  induction n with
  | zero => intro cur i hi; exact absurd hi (Nat.not_lt_zero i)
  | succ m ih =>
    intro cur i hi
    cases i with
    | zero => rw [genRevenuesLoop, List.getD_cons_zero, pow_zero, mul_one]
    | succ j =>
      rw [genRevenuesLoop, List.getD_cons_succ, ih (cur * (1 + growth)) j (by omega)]
      congr 1
      ring

/-- Zero growth leaves the running value fixed, so the loop emits copies of
the rounded start. -/
lemma genRevenuesLoop_zero_growth :
    ∀ (n : ℕ) (cur : ℚ),
      genRevenuesLoop 0 n cur = List.replicate n (round2 cur) := by
  intro n
  induction n with
  | zero => intro cur; rfl
  | succ m ih =>
    intro cur
    rw [genRevenuesLoop, show cur * (1 + 0) = cur by ring, ih, List.replicate_succ]

/-- C4: for every years ≥ 1, `generate_revenues` returns a sequence of
length `years` whose element i equals `round2 (start * (1+growth)^i)` —
growth compounds on the unrounded running value, only the stored output is
rounded — and with growth 0 it returns `years` copies of `round2 start`. -/
theorem generate_revenues_spec :
    ∀ (years : ℕ) (start growth : ℚ), 1 ≤ years →
      ((generate_revenues years start growth).length = years ∧
       ∀ i < years,
         (generate_revenues years start growth).getD i 0 =
           round2 (start * (1 + growth) ^ i)) ∧
      generate_revenues years start 0 = List.replicate years (round2 start) := by
  intro years start growth _
  refine ⟨⟨genRevenuesLoop_length growth years start, ?_⟩, ?_⟩
  · intro i hi
    exact genRevenuesLoop_getD growth years start i hi
  · exact genRevenuesLoop_zero_growth years start

/-- Witness for `generate_revenues_spec`: 3 years at 100% growth from 1
give element 2 = round2 4, and zero growth gives three copies of
round2 1. -/
theorem generate_revenues_spec_witness :
    (generate_revenues 3 1 1).getD 2 0 = round2 (1 * (1 + 1) ^ 2) ∧
    generate_revenues 3 1 0 = List.replicate 3 (round2 1) :=
  ⟨(generate_revenues_spec 3 1 1 (by norm_num)).1.2 2 (by norm_num),
   (generate_revenues_spec 3 1 0 (by norm_num)).2⟩

/- ============== OPEX SERIES (C5) ============== -/

/-- Length of the OPEX loop output. -/
lemma genOpexLoop_length (start long_growth : ℚ) :
    ∀ (n year : ℕ) (prev : ℚ), (genOpexLoop start long_growth n year prev).length = n := by
  intro n
  induction n with
  | zero => intro year prev; rfl
  | succ m ih => intro year prev; simp [genOpexLoop, ih]

/-- Loop invariant for `genOpexLoop`: when `prev` holds the value of the
previous year, element `i` of the output is `opexVal` at `year + i`. -/
lemma genOpexLoop_getD (start long_growth : ℚ) :
    ∀ (n year : ℕ) (prev : ℚ), 1 ≤ year →
      prev = opexVal start long_growth (year - 1) →
      ∀ i < n,
        (genOpexLoop start long_growth n year prev).getD i 0 =
          opexVal start long_growth (year + i) := by
  intro n
  induction n with
  | zero => intro year prev _ _ i hi; exact absurd hi (Nat.not_lt_zero i)
  | succ m ih =>
    intro year prev hy hprev i hi
    have hv : (if year ≤ 10 then start else prev * (1 + long_growth)) =
        opexVal start long_growth year := by
      by_cases h10 : year ≤ 10
      · rw [if_pos h10, opexVal, if_pos h10]
      · rw [if_neg h10, opexVal, if_neg h10, hprev, opexVal]
        by_cases h11 : year - 1 ≤ 10
        · have hy11 : year = 11 := by omega
          subst hy11
          norm_num
        · rw [if_neg h11, mul_assoc, mul_comm ((1 + long_growth) ^ (year - 1 - 10)),
            ← pow_succ']
          congr 2
          omega
    cases i with
    | zero =>
      rw [genOpexLoop, List.getD_cons_zero, hv, Nat.add_zero]
    | succ j =>
      rw [genOpexLoop, List.getD_cons_succ,
        ih (year + 1) _ (by omega) (by rw [Nat.add_sub_cancel, hv]) j (by omega)]
      congr 1
      omega

/-- C5: for every years ≥ 1, `generate_opex` has length `years`, elements
for years 1-10 equal `start` exactly, each element from year 11 onward
equals the previous year's value times `1 + long_growth`; in particular a
10-year series is constant at 910000 for every growth value, and an
11-year series at growth 0.02 has element 10 equal to 910000 × 1.02. -/
theorem generate_opex_spec :
    ∀ (years : ℕ) (start long_growth : ℚ), 1 ≤ years →
      ((generate_opex years start long_growth).length = years ∧
       (∀ i < years, i < 10 → (generate_opex years start long_growth).getD i 0 = start) ∧
       (∀ i < years, 10 ≤ i →
         (generate_opex years start long_growth).getD i 0 =
           (generate_opex years start long_growth).getD (i - 1) 0 * (1 + long_growth))) ∧
      generate_opex 10 910000 long_growth = List.replicate 10 (910000 : ℚ) ∧
      (generate_opex 11 910000 (2 / 100)).getD 10 0 = 910000 * (1 + 2 / 100) := by
  intro years start long_growth _
  have hbase : ∀ i < years,
      (generate_opex years start long_growth).getD i 0 =
        opexVal start long_growth (1 + i) := by
    intro i hi
    exact genOpexLoop_getD start long_growth years 1 start (le_refl 1) (by rfl) i hi
  refine ⟨⟨genOpexLoop_length start long_growth years 1 start, ?_, ?_⟩, ?_, ?_⟩
  · intro i hi h10
    rw [hbase i hi, opexVal, if_pos (by omega)]
  · intro i hi h10
    rw [hbase i hi, hbase (i - 1) (by omega), opexVal, opexVal, if_neg (by omega)]
    by_cases hone : i = 10
    · subst hone
      norm_num
    · rw [if_neg (by omega), mul_assoc, mul_comm ((1 + long_growth) ^ (1 + (i - 1) - 10)),
        ← pow_succ']
      congr 2
      omega
  · rfl
  · have h := genOpexLoop_getD 910000 (2 / 100) 11 1 910000 (le_refl 1) (by rfl) 10
      (by norm_num)
    rw [generate_opex, h, opexVal, if_neg (by omega)]
    norm_num

/-- Witness for `generate_opex_spec`: an 11-year series starting at 5 with
100% long growth is 5 through year 10 and 10 in year 11. -/
theorem generate_opex_spec_witness :
    (generate_opex 11 5 1).getD 9 0 = 5 ∧
    (generate_opex 11 5 1).getD 10 0 = (generate_opex 11 5 1).getD 9 0 * (1 + 1) :=
  ⟨(generate_opex_spec 11 5 1 (by norm_num)).1.2.1 9 (by norm_num) (by norm_num),
   (generate_opex_spec 11 5 1 (by norm_num)).1.2.2 10 (by norm_num) (by norm_num)⟩

/- ============== CASHFLOW BUILDER LEMMAS (C1, C3) ============== -/

/-- Catalog key comparison fact used to evaluate lookups. -/
lemma beq_xanthan_hpam : ("xanthan" == "hpam") = false := by decide

/-- Catalog key comparison fact used to evaluate lookups. -/
lemma beq_atbs_hpam : ("atbs" == "hpam") = false := by decide

/-- Catalog key comparison fact used to evaluate lookups. -/
lemma beq_atbs_xanthan : ("atbs" == "xanthan") = false := by decide

/-- Successful runs of `build_cashflow_for_polymer` decompose into a
successful cost lookup, a successful builder loop and a successful NPV. -/
lemma build_ok_elim {poly_key : String} {years : ℕ} {revenues opex_list : List ℚ}
    {tax_rate discount_rate : ℚ} {res : PolymerResult}
    (h : build_cashflow_for_polymer poly_key years revenues opex_list tax_rate discount_rate
      = Except.ok res) :
    ∃ c acc v, polymer_cost poly_key = Except.ok c ∧
      buildLoop c tax_rate revenues opex_list years 1 [] [] 0 = Except.ok acc ∧
      npv acc.2.1 discount_rate = Except.ok v ∧
      res = ⟨acc.1, v, acc.2.2, acc.2.1⟩ := by
  unfold build_cashflow_for_polymer at h
  split at h
  · exact Except.noConfusion h
  · rename_i c hc
    split at h
    · exact Except.noConfusion h
    · rename_i acc hacc
      split at h
      · exact Except.noConfusion h
      · rename_i v hv
        exact ⟨c, acc, v, hc, hacc, hv, (Except.ok.inj h).symm⟩

/-- Every row a successful builder loop emits beyond the incoming
accumulator satisfies `rowInvariant`. -/
lemma buildLoop_rows_spec (c tax_rate : ℚ) (revenues opex_list : List ℚ) :
    ∀ (n year : ℕ) (rows : List YearRecord) (cfs : List ℚ) (s : ℚ)
      (out : List YearRecord × List ℚ × ℚ),
      buildLoop c tax_rate revenues opex_list n year rows cfs s = Except.ok out →
      ∀ r ∈ out.1, r ∈ rows ∨ rowInvariant c tax_rate r := by
  intro n
  induction n with
  | zero =>
    intro year rows cfs s out h r hr
    rw [buildLoop] at h
    injection h with h'
    subst h'
    exact Or.inl hr
  | succ m ih =>
    intro year rows cfs s out h r hr
    rw [buildLoop] at h
    split at h
    · rcases ih (year + 1) _ _ _ out h r hr with hmem | hinv
      · rcases List.mem_append.mp hmem with h1 | h2
        · exact Or.inl h1
        · right
          obtain rfl := List.mem_singleton.mp h2
          exact ⟨rfl, rfl, rfl, rfl, rfl, rfl⟩
      · exact Or.inr hinv
    · exact Except.noConfusion h

/-- The year fields of the rows a successful builder loop emits continue
the accumulator with the consecutive years `year, year+1, …`. -/
lemma buildLoop_rows_years (c tax_rate : ℚ) (revenues opex_list : List ℚ) :
    ∀ (n year : ℕ) (rows : List YearRecord) (cfs : List ℚ) (s : ℚ)
      (out : List YearRecord × List ℚ × ℚ),
      buildLoop c tax_rate revenues opex_list n year rows cfs s = Except.ok out →
      out.1.map YearRecord.year = rows.map YearRecord.year ++ List.range' year n := by
  intro n
  induction n with
  | zero =>
    intro year rows cfs s out h
    rw [buildLoop] at h
    injection h with h'
    subst h'
    simp [List.range']
  | succ m ih =>
    intro year rows cfs s out h
    rw [buildLoop] at h
    split at h
    · rw [ih (year + 1) _ _ _ out h, List.map_append, List.append_assoc]
      congr 1
    · exact Except.noConfusion h

/-- C1: every year row of a successful `build_cashflow_for_polymer` run
satisfies the ledger equations: taxable income = revenue − opex − polymer
expense − equipment expense, tax = max(taxable income, 0) × tax_rate,
net profit = taxable income − tax, and cash flow = net profit. -/
theorem build_rows_ledger_invariant :
    ∀ (poly_key : String) (years : ℕ) (revenues opex_list : List ℚ)
      (tax_rate discount_rate : ℚ) (res : PolymerResult),
      build_cashflow_for_polymer poly_key years revenues opex_list tax_rate discount_rate =
        Except.ok res →
      ∀ r ∈ res.rows,
        r.taxable_income = r.revenue - r.opex - r.polymer_exp - r.equipment ∧
        r.tax = max r.taxable_income 0 * tax_rate ∧
        r.net_profit = r.taxable_income - r.tax ∧
        r.cash_flow = r.net_profit := by
  intro pk years revs opex tax disc res h r hr
  obtain ⟨c, acc, v, hc, hacc, hv, hres⟩ := build_ok_elim h
  subst hres
  rcases buildLoop_rows_spec c tax revs opex years 1 [] [] 0 acc hacc r hr with hmem | hinv
  · exact absurd hmem (List.not_mem_nil r)
  · exact ⟨hinv.2.2.1, hinv.2.2.2.1, hinv.2.2.2.2.1, hinv.2.2.2.2.2⟩

/-- Witness for `build_rows_ledger_invariant`: a 1-year HPAM run with
revenue 200000, OPEX 10000 and zero rates; the single row is
(1, 200000, 10000, 104000, 0, 86000, 0, 86000, 86000). -/
theorem build_rows_ledger_invariant_witness :
    (86000 : ℚ) = 200000 - 10000 - 104000 - 0 ∧
    (0 : ℚ) = max (86000 : ℚ) 0 * 0 ∧
    (86000 : ℚ) = 86000 - 0 ∧
    (86000 : ℚ) = (86000 : ℚ) :=
  build_rows_ledger_invariant "hpam" 1 [200000] [10000] 0 0
    ⟨[⟨1, 200000, 10000, 104000, 0, 86000, 0, 86000, 86000⟩], 86000, 86000, [86000]⟩
    (by norm_num [build_cashflow_for_polymer, polymer_cost, POLYMERS, List.lookup,
      buildLoop, npv, npvLoop, EQUIPMENT_REPLACEMENT_COST])
    ⟨1, 200000, 10000, 104000, 0, 86000, 0, 86000, 86000⟩
    (List.mem_singleton.mpr rfl)

/-- C3: in a successful build, the polymer expense of each row is the
catalog's one-time purchase cost in year 1 and 0 otherwise, the equipment
expense is 30000 exactly in years that are multiples of 10 and strictly
greater than 1 and 0 otherwise, the rows cover exactly the years
1..years, and the default catalog costs are 104000 for hpam, 144000 for
xanthan and 133000 for atbs. -/
theorem build_rows_expense_schedule :
    ∀ (poly_key : String) (years : ℕ) (revenues opex_list : List ℚ)
      (tax_rate discount_rate : ℚ) (res : PolymerResult) (c : ℚ),
      polymer_cost poly_key = Except.ok c →
      build_cashflow_for_polymer poly_key years revenues opex_list tax_rate discount_rate =
        Except.ok res →
      (∀ r ∈ res.rows,
        r.polymer_exp = (if r.year = 1 then c else 0) ∧
        r.equipment = (if r.year % 10 = 0 ∧ 1 < r.year then (30000 : ℚ) else 0)) ∧
      res.rows.map YearRecord.year = List.range' 1 years ∧
      polymer_cost "hpam" = Except.ok 104000 ∧
      polymer_cost "xanthan" = Except.ok 144000 ∧
      polymer_cost "atbs" = Except.ok 133000 := by
  intro pk years revs opex tax disc res c hcost h
  obtain ⟨c', acc, v, hc, hacc, hv, hres⟩ := build_ok_elim h
  rw [hcost] at hc
  obtain rfl := Except.ok.inj hc
  subst hres
  refine ⟨?_, ?_, ?_, ?_, ?_⟩
  · intro r hr
    rcases buildLoop_rows_spec c tax revs opex years 1 [] [] 0 acc hacc r hr with hmem | hinv
    · exact absurd hmem (List.not_mem_nil r)
    · exact ⟨hinv.1, hinv.2.1⟩
  · have := buildLoop_rows_years c tax revs opex years 1 [] [] 0 acc hacc
    simpa using this
  · norm_num [polymer_cost, POLYMERS, List.lookup]
  · norm_num [polymer_cost, POLYMERS, List.lookup, beq_xanthan_hpam]
  · norm_num [polymer_cost, POLYMERS, List.lookup, beq_atbs_hpam, beq_atbs_xanthan]

/-- Witness for `build_rows_expense_schedule`: a 2-year ATBS run; the rows
carry years 1 and 2. -/
theorem build_rows_expense_schedule_witness :
    ([⟨1, 100, 10, 133000, 0, -132910, 0, -132910, -132910⟩,
      ⟨2, 200, 20, 0, 0, 180, 0, 180, 180⟩] : List YearRecord).map YearRecord.year =
      List.range' 1 2 :=
  (build_rows_expense_schedule "atbs" 2 [100, 200] [10, 20] 0 0
    ⟨[⟨1, 100, 10, 133000, 0, -132910, 0, -132910, -132910⟩,
      ⟨2, 200, 20, 0, 0, 180, 0, 180, 180⟩], -132730, -132730, [-132910, 180]⟩
    133000
    (by norm_num [polymer_cost, POLYMERS, List.lookup, beq_atbs_hpam, beq_atbs_xanthan])
    (by norm_num [build_cashflow_for_polymer, polymer_cost, POLYMERS, List.lookup,
      buildLoop, npv, npvLoop, EQUIPMENT_REPLACEMENT_COST, beq_atbs_hpam,
      beq_atbs_xanthan])).2.1

/- ============== KEY LOOKUP ERRORS (C7) ============== -/

/-- Association-list lookup fails exactly when the key is absent from the
key column. -/
lemma lookup_none_iff :
    ∀ (l : List (String × PolymerData)) (k : String),
      l.lookup k = none ↔ k ∉ l.map Prod.fst := by
  intro l k
  induction l with
  | nil => simp
  | cons p rest ih =>
    obtain ⟨a, b⟩ := p
    by_cases h : k = a
    · subst h
      simp [List.lookup]
    · rw [List.lookup]
      rw [show (k == a) = false from beq_eq_false_iff_ne.mpr h]
      simp only [List.map_cons, List.mem_cons, ih]
      constructor
      · intro hn hk
        rcases hk with hk | hk
        · exact h hk
        · exact hn hk
      · intro hn
        exact fun hk => hn (Or.inr hk)

/-- The builder loop never raises a key error (its only error is the
index error from list access). -/
lemma buildLoop_ne_keyError (c tax_rate : ℚ) (revenues opex_list : List ℚ) :
    ∀ (n year : ℕ) (rows : List YearRecord) (cfs : List ℚ) (s : ℚ),
      buildLoop c tax_rate revenues opex_list n year rows cfs s ≠
        Except.error CalcError.keyError := by
  intro n
  induction n with
  | zero =>
    intro year rows cfs s h
    rw [buildLoop] at h
    exact Except.noConfusion h
  | succ m ih =>
    intro year rows cfs s h
    rw [buildLoop] at h
    split at h
    · exact ih (year + 1) _ _ _ h
    · injection h with h'
      exact CalcError.noConfusion h'

/-- The NPV loop never raises a key error (its only error is the division
by zero). -/
lemma npvLoop_ne_keyError (rate : ℚ) :
    ∀ (cfs : List ℚ) (t : ℕ) (total : ℚ),
      npvLoop rate cfs t total ≠ Except.error CalcError.keyError := by
  intro cfs
  induction cfs with
  | nil =>
    intro t total h
    exact Except.noConfusion h
  | cons cf rest ih =>
    intro t total h
    rw [npvLoop] at h
    split at h
    · injection h with h'
      exact CalcError.noConfusion h'
    · exact ih (t + 1) _ h

/-- When the cost lookup succeeds, the builder can fail only with the
index or division errors of its later stages, never with a key error. -/
lemma build_ne_keyError_of_cost_ok {poly_key : String} {years : ℕ}
    {revenues opex_list : List ℚ} {tax_rate discount_rate c : ℚ}
    (hc : polymer_cost poly_key = Except.ok c) :
    build_cashflow_for_polymer poly_key years revenues opex_list tax_rate discount_rate ≠
      Except.error CalcError.keyError := by
  intro h
  unfold build_cashflow_for_polymer at h
  split at h
  · rename_i e he
    rw [hc] at he
    exact Except.noConfusion he
  · rename_i cv hcv
    split at h
    · rename_i e he
      injection h with h'
      subst h'
      exact buildLoop_ne_keyError cv tax_rate revenues opex_list years 1 [] [] 0 he
    · rename_i acc hacc
      split at h
      · rename_i e he
        injection h with h'
        subst h'
        exact npvLoop_ne_keyError discount_rate acc.2.1 1 0 he
      · exact Except.noConfusion h

/-- C7: the catalog cost lookup fails with the key error exactly when the
requested key is absent from the catalog, and so does
`build_cashflow_for_polymer`; for every key present in the catalog,
`polymer_cost` returns the looked-up entry's cost
concentration × volume × unit price without error. -/
theorem polymer_cost_key_error_iff :
    ∀ (poly_key : String) (years : ℕ) (revenues opex_list : List ℚ)
      (tax_rate discount_rate : ℚ),
      (polymer_cost poly_key = Except.error CalcError.keyError ↔
        poly_key ∉ POLYMERS.map Prod.fst) ∧
      (poly_key ∈ POLYMERS.map Prod.fst →
        ∃ data, POLYMERS.lookup poly_key = some data ∧
          polymer_cost poly_key =
            Except.ok (data.conc_kg_per_m3 * data.inj_volume_m3 * data.price_per_kg)) ∧
      (build_cashflow_for_polymer poly_key years revenues opex_list tax_rate discount_rate =
          Except.error CalcError.keyError ↔
        poly_key ∉ POLYMERS.map Prod.fst) := by
  intro pk years revs opex tax disc
  refine ⟨?_, ?_, ?_⟩
  · rw [polymer_cost]
    cases hl : POLYMERS.lookup pk with
    | none =>
      simp only [iff_true_intro rfl, true_iff]
      exact (lookup_none_iff POLYMERS pk).mp hl
    | some data =>
      constructor
      · intro h
        exact Except.noConfusion h
      · intro h
        exact absurd hl (by rw [(lookup_none_iff POLYMERS pk).mpr h]; intro hc; exact Option.noConfusion hc)
  · intro hmem
    cases hl : POLYMERS.lookup pk with
    | none => exact absurd hmem ((lookup_none_iff POLYMERS pk).mp hl)
    | some data =>
      refine ⟨data, rfl, ?_⟩
      rw [polymer_cost, hl]
  · cases hl : POLYMERS.lookup pk with
    | none =>
      have hcost : polymer_cost pk = Except.error CalcError.keyError := by
        rw [polymer_cost, hl]
      have hbuild : build_cashflow_for_polymer pk years revs opex tax disc =
          Except.error CalcError.keyError := by
        rw [build_cashflow_for_polymer, hcost]
      constructor
      · intro _
        exact (lookup_none_iff POLYMERS pk).mp hl
      · intro _
        exact hbuild
    | some data =>
      have hnotmem : ¬pk ∉ POLYMERS.map Prod.fst := by
        intro h
        rw [(lookup_none_iff POLYMERS pk).mpr h] at hl
        exact Option.noConfusion hl
      have hcost : polymer_cost pk =
          Except.ok (data.conc_kg_per_m3 * data.inj_volume_m3 * data.price_per_kg) := by
        rw [polymer_cost, hl]
      constructor
      · intro h
        exact absurd h (build_ne_keyError_of_cost_ok hcost)
      · intro h
        exact absurd h hnotmem

/-- Witness for `polymer_cost_key_error_iff`: the absent key "foo" fails,
in the lookup and in the builder, and never otherwise. -/
theorem polymer_cost_key_error_iff_witness :
    polymer_cost "foo" = Except.error CalcError.keyError ∧
    build_cashflow_for_polymer "foo" 1 [100] [10] 0 0 = Except.error CalcError.keyError :=
  ⟨(polymer_cost_key_error_iff "foo" 1 [100] [10] 0 0).1.mpr (by decide),
   (polymer_cost_key_error_iff "foo" 1 [100] [10] 0 0).2.2.mpr (by decide)⟩

/- ============== BEST-NPV SELECTION (C8) ============== -/

/-- Reduction of the best-tracking step on an already-populated state:
update exactly when the new NPV is strictly greater. -/
lemma selStep_some (k : String) (v : ℚ) (kv : String × ℚ) :
    selStep (some k, some v) kv =
      if v < kv.2 then (some kv.1, some kv.2) else (some k, some v) := by
  by_cases h : v < kv.2
  · simp [selStep, h]
  · simp [selStep, h]

/-- A successful comparison loop records one pair per catalog entry, in
order, and its final best state is the left fold of `selStep` over the
recorded pairs. -/
lemma compareLoop_ok (years : ℕ) (revs opex : List ℚ) (tax disc : ℚ) :
    ∀ (L : List (String × PolymerData)) (bp : Option String) (bn : Option ℚ)
      (out : List (String × ℚ) × Option String × Option ℚ),
      compareLoop years revs opex tax disc L bp bn = Except.ok out →
      out.1.map Prod.fst = L.map Prod.fst ∧ out.2 = out.1.foldl selStep (bp, bn) := by
  intro L
  induction L with
  | nil =>
    intro bp bn out h
    rw [compareLoop] at h
    injection h with h'
    subst h'
    exact ⟨rfl, rfl⟩
  | cons kv rest ih =>
    intro bp bn out h
    rw [compareLoop] at h
    split at h
    · exact Except.noConfusion h
    · rename_i res hres
      split at h
      · exact Except.noConfusion h
      · rename_i next hnext
        injection h with h'
        subst h'
        obtain ⟨hmap, hbest⟩ := ih _ _ next hnext
        constructor
        · rw [List.map_cons, List.map_cons, hmap]
        · rw [List.foldl_cons, ← hbest]

/-- The fold of `selStep` from a populated state keeps the incoming best
when nothing beats it, and otherwise lands on the first strict maximum of
the list: all elements are bounded by the result, every element strictly
before the selected index is strictly below it, and the incoming value is
strictly below it. -/
lemma selFold_spec :
    ∀ (L : List (String × ℚ)) (k : String) (v : ℚ),
      ∃ k' v', L.foldl selStep (some k, some v) = (some k', some v') ∧
        ((k' = k ∧ v' = v ∧ ∀ q ∈ L, q.2 ≤ v) ∨
         (∃ i, i < L.length ∧ k' = (L.getD i ("", 0)).1 ∧ v' = (L.getD i ("", 0)).2 ∧
           v < v' ∧ (∀ q ∈ L, q.2 ≤ v') ∧ ∀ q ∈ L.take i, q.2 < v')) := by
  intro L
  induction L with
  | nil => intro k v; exact ⟨k, v, rfl, Or.inl ⟨rfl, rfl, by simp⟩⟩
  | cons p rest ih =>
    intro k v
    rw [List.foldl_cons, selStep_some]
    by_cases hpv : v < p.2
    · rw [if_pos hpv]
      obtain ⟨k', v', heq, hcase⟩ := ih p.1 p.2
      refine ⟨k', v', heq, Or.inr ?_⟩
      rcases hcase with ⟨hk, hv, hall⟩ | ⟨i, hi, hk, hv, hlt, hall, htake⟩
      · refine ⟨0, by simp, by simpa using hk, by simpa using hv, ?_, ?_, ?_⟩
        · rw [hv]; exact hpv
        · intro q hq
          rcases List.mem_cons.mp hq with rfl | hq
          · rw [hv]
          · rw [hv]; exact hall q hq
        · intro q hq
          simp at hq
      · refine ⟨i + 1, by simpa using hi, by rw [List.getD_cons_succ]; exact hk,
          by rw [List.getD_cons_succ]; exact hv, lt_trans hpv hlt, ?_, ?_⟩
        · intro q hq
          rcases List.mem_cons.mp hq with rfl | hq
          · exact le_of_lt hlt
          · exact hall q hq
        · rw [List.take_succ_cons]
          intro q hq
          rcases List.mem_cons.mp hq with rfl | hq
          · exact hlt
          · exact htake q hq
    · rw [if_neg hpv]
      obtain ⟨k', v', heq, hcase⟩ := ih k v
      refine ⟨k', v', heq, ?_⟩
      rcases hcase with ⟨hk, hv, hall⟩ | ⟨i, hi, hk, hv, hlt, hall, htake⟩
      · refine Or.inl ⟨hk, hv, ?_⟩
        intro q hq
        rcases List.mem_cons.mp hq with rfl | hq
        · exact not_lt.mp hpv
        · exact hall q hq
      · refine Or.inr ⟨i + 1, by simpa using hi, by rw [List.getD_cons_succ]; exact hk,
          by rw [List.getD_cons_succ]; exact hv, hlt, ?_, ?_⟩
        · intro q hq
          rcases List.mem_cons.mp hq with rfl | hq
          · exact le_trans (not_lt.mp hpv) (le_of_lt hlt)
          · exact hall q hq
        · rw [List.take_succ_cons]
          intro q hq
          rcases List.mem_cons.mp hq with rfl | hq
          · exact lt_of_le_of_lt (not_lt.mp hpv) hlt
          · exact htake q hq

/-- The initial `none` state is always beaten by the first pair. -/
lemma selFold_none (p : String × ℚ) (rest : List (String × ℚ)) :
    (p :: rest).foldl selStep (none, none) =
      rest.foldl selStep (some p.1, some p.2) := by
  rw [List.foldl_cons]
  rfl

/-- C8: a successful comparison records one NPV pair per catalog key in
catalog iteration order, and selects as best the first pair attaining the
greatest NPV: every pair's NPV is bounded by the selected one, and every
pair strictly before the selected index has strictly smaller NPV (so on an
exact tie the earlier key in catalog order wins, since the comparison uses
strict `>`). -/
theorem compare_best_is_first_strict_max :
    ∀ (years : ℕ) (revenues opex_list : List ℚ) (tax_rate discount_rate : ℚ)
      (pairs : List (String × ℚ)) (best_poly : Option String) (best_npv : Option ℚ),
      compare_polymers years revenues opex_list tax_rate discount_rate =
        Except.ok (pairs, best_poly, best_npv) →
      pairs.map Prod.fst = POLYMERS.map Prod.fst ∧
      ∃ i, i < pairs.length ∧
        best_poly = some (pairs.getD i ("", 0)).1 ∧
        best_npv = some (pairs.getD i ("", 0)).2 ∧
        (∀ q ∈ pairs, q.2 ≤ (pairs.getD i ("", 0)).2) ∧
        (∀ q ∈ pairs.take i, q.2 < (pairs.getD i ("", 0)).2) := by
  intro years revs opex tax disc pairs bp bn h
  obtain ⟨hmap, hbest⟩ :=
    compareLoop_ok years revs opex tax disc POLYMERS none none (pairs, (bp, bn)) h
  refine ⟨hmap, ?_⟩
  cases pairs with
  | nil => exact absurd hmap (by simp [POLYMERS])
  | cons p rest =>
    rw [selFold_none] at hbest
    obtain ⟨k', v', heq, hcase⟩ := selFold_spec rest p.1 p.2
    rw [heq] at hbest
    have hbp : bp = some k' := congrArg Prod.fst hbest
    have hbn : bn = some v' := congrArg Prod.snd hbest
    rcases hcase with ⟨hk, hv, hall⟩ | ⟨i, hi, hk, hv, hlt, hall, htake⟩
    · refine ⟨0, by simp, ?_, ?_, ?_, ?_⟩
      · rw [hbp, hk, List.getD_cons_zero]
      · rw [hbn, hv, List.getD_cons_zero]
      · rw [List.getD_cons_zero]
        intro q hq
        rcases List.mem_cons.mp hq with rfl | hq
        · exact le_refl _
        · exact hall q hq
      · intro q hq
        simp at hq
    · refine ⟨i + 1, by simpa using hi, ?_, ?_, ?_, ?_⟩
      · rw [hbp, hk, List.getD_cons_succ]
      · rw [hbn, hv, List.getD_cons_succ]
      · rw [List.getD_cons_succ, ← hv]
        intro q hq
        rcases List.mem_cons.mp hq with rfl | hq
        · exact le_of_lt hlt
        · exact hall q hq
      · rw [List.getD_cons_succ, ← hv, List.take_succ_cons]
        intro q hq
        rcases List.mem_cons.mp hq with rfl | hq
        · exact hlt
        · exact htake q hq

/-- Witness for `compare_best_is_first_strict_max`: a concrete 1-year run;
hpam's NPV −5000 beats xanthan's −45000 and atbs's −34000, so the best is
"hpam", and the recorded keys follow catalog order. -/
theorem compare_best_is_first_strict_max_witness :
    compare_polymers 1 [100000] [1000] 0 0 =
      Except.ok ([("hpam", -5000), ("xanthan", -45000), ("atbs", -34000)],
        some "hpam", some (-5000 : ℚ)) ∧
    ([("hpam", (-5000 : ℚ)), ("xanthan", -45000), ("atbs", -34000)]).map Prod.fst =
      POLYMERS.map Prod.fst := by
  have hrun : compare_polymers 1 [100000] [1000] 0 0 =
      Except.ok ([("hpam", -5000), ("xanthan", -45000), ("atbs", -34000)],
        some "hpam", some (-5000 : ℚ)) := by
    norm_num [compare_polymers, compareLoop, build_cashflow_for_polymer, polymer_cost,
      POLYMERS, List.lookup, buildLoop, npv, npvLoop, EQUIPMENT_REPLACEMENT_COST,
      beq_xanthan_hpam, beq_atbs_hpam, beq_atbs_xanthan, selStep]
  exact ⟨hrun, (compare_best_is_first_strict_max 1 [100000] [1000] 0 0 _ _ _ hrun).1⟩

end Calc4
